import Mathlib

/-!
Verification of the tailproxy repository: a shallow embedding of the
supervisor (main.go, config.go, proxy.go, exporter.go) and of the
LD_PRELOAD interposer (preload.c), with theorems settling the frozen
claims about its specification.

Modelling conventions:
* Go `int` values (ports, refcounts, export caps) are modelled as `Int`;
  the 64-bit range check of `strconv.Atoi` is not modelled (all ports of
  interest fit comfortably).
* Go maps keyed by port are modelled as association lists
  `List (Int × _)`; insertion happens only after a failed lookup, so
  keys stay unique on every reachable state.
* Go string primitives (`strings.Split` on a one-character separator,
  `strings.Fields`, `strings.TrimSpace`, `strings.Contains` with a
  one-character needle, `strconv.Atoi`) are given structurally recursive
  counterparts over `List Char` so that concrete instances evaluate
  inside the kernel; `String` values enter through `String.data`.
* Side effects that do not touch the state the claims speak about
  (logging, the actual socket I/O) are dropped; the data they act on
  (listener handles, cancellation) is kept as explicit fields.
-/

namespace Tailproxy

/-! ### String primitives -/

/-- Split a character list at every separator occurrence, keeping empty
pieces — the semantics of Go `strings.Split` for a one-character
separator (`","` and `"-"` are the only separators the source uses). -/
def splitByChar (p : Char → Bool) : List Char → List (List Char)
  | [] => [[]]
  | c :: rest =>
    match splitByChar p rest with
    | [] => [[c]]
    | h :: t => if p c then [] :: h :: t else (c :: h) :: t

/-- Go `strings.Split s sep` for a one-character separator. -/
def splitOnChar (sep : Char) (l : List Char) : List (List Char) :=
  splitByChar (fun c => c == sep) l

/-- Go `strings.TrimSpace`: drop leading and trailing whitespace. -/
def trimChars (l : List Char) : List Char :=
  ((l.dropWhile Char.isWhitespace).reverse.dropWhile Char.isWhitespace).reverse

/-- Go `strings.Fields`: maximal whitespace-free substrings. -/
def fieldsChars (l : List Char) : List (List Char) :=
  (splitByChar Char.isWhitespace l).filter (fun t => !t.isEmpty)

/-- Model of Go `strconv.Atoi`: optional sign, at least one digit, all
digits; returns the decimal value. -/
def atoiChars (l : List Char) : Option Int :=
  let neg : Bool := l.head? == some '-'
  let digits : List Char :=
    if l.head? == some '-' ∨ l.head? == some '+' then l.tail else l
  if digits.isEmpty then none
  else if ¬ digits.all Char.isDigit then none
  else
    let v : Int := Int.ofNat (digits.foldl (fun a c => 10 * a + (c.toNat - 48)) 0)
    some (if neg then -v else v)

/-- Go `strconv.Atoi` on a `String`. -/
def goAtoi (s : String) : Option Int := atoiChars s.data

/-- Go `strings.Fields` on a `String`. -/
def goFields (s : String) : List String :=
  (fieldsChars s.data).map (fun l => String.mk l)

/-- Go `strings.TrimSpace` on a `String`. -/
def goTrim (s : String) : String := String.mk (trimChars s.data)

/-! ### Port policy (exporter.go: `matchesPortSpec`, `isPortAllowed`)

`matchesPortSpec` walks the comma-separated tokens of a spec; a token
containing a dash is a `low-high` range (skipped unless it splits into
exactly two parseable parts), otherwise a single port. -/

/-- One loop iteration of `ExporterManager.matchesPortSpec`: does the
token match the candidate port? -/
def matchToken (port : Int) (tok : List Char) : Bool :=
  let part := trimChars tok
  if part.any (fun c => c == '-') then
    let rangeParts := splitOnChar '-' part
    if rangeParts.length = 2 then
      match atoiChars (trimChars (rangeParts.getD 0 [])) with
      | some low =>
        match atoiChars (trimChars (rangeParts.getD 1 [])) with
        | some high => decide (low ≤ port ∧ port ≤ high)
        | none => false
      | none => false
    else false
  else
    match atoiChars part with
    | some p => p == port
    | none => false

/-- Function `ExporterManager.matchesPortSpec` from exporter.go: true if any
comma-separated token of `spec` matches `port`. -/
def matchesPortSpec (port : Int) (spec : String) : Bool :=
  (splitOnChar ',' spec.data).any (matchToken port)

/-- Supervisor configuration (config.go `Config`, the version with the
export fields, as referenced by exporter.go). -/
structure Config where
  ExitNode : String
  Hostname : String
  AuthKey : String
  ProxyPort : Int
  Verbose : Bool
  ExportListeners : Bool
  ExportAllowPorts : String
  ExportDenyPorts : String
  ExportMax : Int
deriving DecidableEq

/-- Function `ExporterManager.isPortAllowed` from exporter.go: deny spec first,
then allow spec, default accept when the allow spec is empty. -/
def isPortAllowed (config : Config) (port : Int) : Bool :=
  if config.ExportDenyPorts ≠ "" ∧ matchesPortSpec port config.ExportDenyPorts = true then
    false
  else if config.ExportAllowPorts ≠ "" then
    matchesPortSpec port config.ExportAllowPorts
  else
    true

theorem matchesPortSpec_empty (port : Int) : matchesPortSpec port "" = false := rfl

/-- Claim C3: the export policy evaluates the deny spec first and rejects
on a match; otherwise, a non-empty allow spec accepts exactly when it
matches the port, and an empty allow spec accepts by default; in
particular a port matched by both specs is rejected. -/
theorem isPortAllowed_deny_first (config : Config) (port : Int) :
    (matchesPortSpec port config.ExportDenyPorts = true →
       isPortAllowed config port = false)
  ∧ (matchesPortSpec port config.ExportDenyPorts = false →
       config.ExportAllowPorts ≠ "" →
       isPortAllowed config port = matchesPortSpec port config.ExportAllowPorts)
  ∧ (matchesPortSpec port config.ExportDenyPorts = false →
       config.ExportAllowPorts = "" →
       isPortAllowed config port = true)
  ∧ (matchesPortSpec port config.ExportDenyPorts = true →
       matchesPortSpec port config.ExportAllowPorts = true →
       isPortAllowed config port = false) := by
  refine ⟨?_, ?_, ?_, ?_⟩
  · intro hd
    by_cases hde : config.ExportDenyPorts = ""
    · rw [hde, matchesPortSpec_empty] at hd
      exact absurd hd (by simp)
    · simp [isPortAllowed, hde, hd]
  · intro hd ha
    simp [isPortAllowed, hd, ha]
  · intro hd ha
    simp [isPortAllowed, hd, ha]
  · intro hd _
    by_cases hde : config.ExportDenyPorts = ""
    · rw [hde, matchesPortSpec_empty] at hd
      exact absurd hd (by simp)
    · simp [isPortAllowed, hde, hd]

/-! ### Exporter state (exporter.go: `portExporter`, `ExporterManager`)

The mutable state a claim can observe: the port→exporter map, plus the
log of exporters that have been stopped (each recording whether its
cancellation handle was invoked and its overlay listener closed).
`net.Listener`, `context` and `sync.WaitGroup` handles are represented
by the `cancelled`/`listenerClosed` flags they exist to drive. -/

structure portExporter where
  port : Int
  refcount : Int
  cancelled : Bool
  listenerClosed : Bool
deriving DecidableEq

structure EMState where
  exporters : List (Int × portExporter)
  stopped : List portExporter
deriving DecidableEq

def emInit : EMState := ⟨[], []⟩

/-- Go map read `em.exporters[port]`. -/
def lookupExporter (port : Int) : List (Int × portExporter) → Option portExporter
  | [] => none
  | kv :: rest => if kv.1 = port then some kv.2 else lookupExporter port rest

/-- In-place mutation of the entry at `port` (Go exporters hold pointers;
`exp.refcount++` mutates the mapped entry). -/
def updateExporter (port : Int) (f : portExporter → portExporter) :
    List (Int × portExporter) → List (Int × portExporter)
  | [] => []
  | kv :: rest =>
    if kv.1 = port then (kv.1, f kv.2) :: updateExporter port f rest
    else kv :: updateExporter port f rest

/-- Go `delete(em.exporters, port)`. -/
def eraseExporter (port : Int) : List (Int × portExporter) → List (Int × portExporter)
  | [] => []
  | kv :: rest =>
    if kv.1 = port then eraseExporter port rest
    else kv :: eraseExporter port rest

/-- Function `ExporterManager.stopExporter`: cancel the accept loop, close the
overlay listener, remove the entry. -/
def stopExporter (port : Int) (s : EMState) : EMState :=
  match lookupExporter port s.exporters with
  | none => s
  | some exp =>
    { exporters := eraseExporter port s.exporters,
      stopped := s.stopped ++ [{ exp with cancelled := true, listenerClosed := true }] }

/-- Function `ExporterManager.handleListen`. `listenOk` is the outcome of
`em.server.Listen` inside `startExporter` (the only failure point of
that helper); on failure the error is logged and no entry is created. -/
def handleListen (config : Config) (listenOk : Bool) (port : Int) (s : EMState) : EMState :=
  if ¬ isPortAllowed config port = true then s
  else
    match lookupExporter port s.exporters with
    | some _ =>
      { s with exporters :=
          updateExporter port (fun e => { e with refcount := e.refcount + 1 }) s.exporters }
    | none =>
      if (s.exporters.length : Int) ≥ config.ExportMax then s
      else if listenOk then
        { s with exporters :=
            (port, { port := port, refcount := 1,
                     cancelled := false, listenerClosed := false }) :: s.exporters }
      else s

/-- Function `ExporterManager.handleClose`: decrement the refcount; at zero (or
below) stop the exporter. -/
def handleClose (port : Int) (s : EMState) : EMState :=
  match lookupExporter port s.exporters with
  | none => s
  | some exp =>
    let s' : EMState :=
      { s with exporters :=
          updateExporter port (fun e => { e with refcount := e.refcount - 1 }) s.exporters }
    if exp.refcount - 1 ≤ 0 then stopExporter port s' else s'

/-- A control message as dispatched by `handleControlConnection`,
together with the `server.Listen` outcome the environment would supply
if a new exporter is started. -/
inductive EMsg where
  | listen (listenOk : Bool) (port : Int)
  | close (port : Int)
deriving DecidableEq

def emStep (config : Config) (s : EMState) (m : EMsg) : EMState :=
  match m with
  | .listen ok port => handleListen config ok port s
  | .close port => handleClose port s

def emRun (config : Config) (s : EMState) (ms : List EMsg) : EMState :=
  ms.foldl (emStep config) s

/-- Body of the `scanner.Scan` loop of `handleControlConnection`: trim
the line, skip if empty, split into whitespace-separated fields, require
at least three, parse field 2 as the port, dispatch on field 0. Field 1
(the family) is bound in the source only as a comment. -/
def processLine (config : Config) (listenOk : Bool) (rawLine : String) (s : EMState) : EMState :=
  let line := trimChars rawLine.data
  if line.isEmpty then s
  else
    let parts := fieldsChars line
    if parts.length < 3 then s
    else
      let cmd := parts.getD 0 []
      let portStr := parts.getD 2 []
      match atoiChars portStr with
      | none => s
      | some port =>
        if cmd == "LISTEN".data then handleListen config listenOk port s
        else if cmd == "CLOSE".data then handleClose port s
        else s

/-- Example configuration with a deny spec overlapping the allow spec,
used to instantiate the policy theorem. -/
def policyConfig : Config :=
  { ExitNode := "", Hostname := "tailproxy", AuthKey := "",
    ProxyPort := 1080, Verbose := false, ExportListeners := true,
    ExportAllowPorts := "80,8000-8100", ExportDenyPorts := "80",
    ExportMax := 32 }

theorem isPortAllowed_deny_first_witness :
    isPortAllowed policyConfig 80 = false
  ∧ isPortAllowed policyConfig 8080 = true := by
  constructor
  · exact (isPortAllowed_deny_first policyConfig 80).1 (by decide)
  · have h := (isPortAllowed_deny_first policyConfig 8080).2.1 (by decide) (by decide)
    rw [h]
    decide

/-! ### Association-list lemmas for the exporter map -/

theorem lookupExporter_update_self (port : Int) (f : portExporter → portExporter)
    (l : List (Int × portExporter)) :
    lookupExporter port (updateExporter port f l) = (lookupExporter port l).map f := by
  induction l with
  | nil => rfl
  | cons kv rest ih =>
    by_cases h : kv.1 = port
    · simp [lookupExporter, updateExporter, h]
    · simp [lookupExporter, updateExporter, h, ih]

theorem lookupExporter_erase_self (port : Int) (l : List (Int × portExporter)) :
    lookupExporter port (eraseExporter port l) = none := by
  induction l with
  | nil => rfl
  | cons kv rest ih =>
    by_cases h : kv.1 = port
    · simp [eraseExporter, h, ih]
    · simp [eraseExporter, lookupExporter, h, ih]

theorem length_updateExporter (port : Int) (f : portExporter → portExporter)
    (l : List (Int × portExporter)) :
    (updateExporter port f l).length = l.length := by
  induction l with
  | nil => rfl
  | cons kv rest ih =>
    by_cases h : kv.1 = port <;> simp [updateExporter, h, ih]

theorem length_eraseExporter_le (port : Int) (l : List (Int × portExporter)) :
    (eraseExporter port l).length ≤ l.length := by
  induction l with
  | nil => exact Nat.le_refl _
  | cons kv rest ih =>
    by_cases h : kv.1 = port
    · simp only [eraseExporter, if_pos h, List.length_cons]
      exact Nat.le_succ_of_le ih
    · simp only [eraseExporter, if_neg h, List.length_cons]
      exact Nat.succ_le_succ ih

/-- Claim C10: a CLOSE for a port with no entry in the exporter map is a
no-op: the whole state — in particular the map and every existing
entry's refcount — is unchanged. -/
theorem handleClose_absent (s : EMState) (port : Int)
    (h : lookupExporter port s.exporters = none) :
    handleClose port s = s := by
  simp [handleClose, h]

theorem handleClose_absent_witness :
    handleClose 9000 emInit = emInit :=
  handleClose_absent emInit 9000 rfl

/-! ### Claim C4: the exporter map never exceeds `export-max` -/

theorem length_handleListen_le (config : Config) (listenOk : Bool) (port : Int)
    (s : EMState) (h : (s.exporters.length : Int) ≤ config.ExportMax) :
    ((handleListen config listenOk port s).exporters.length : Int) ≤ config.ExportMax := by
  unfold handleListen
  by_cases hallow : isPortAllowed config port = true
  · simp only [hallow, not_true_eq_false, if_false]
    match hl : lookupExporter port s.exporters with
    | some e => simpa [length_updateExporter] using h
    | none =>
      by_cases hcap : (s.exporters.length : Int) ≥ config.ExportMax
      · simpa [hcap] using h
      · cases listenOk with
        | false => simpa [hcap] using h
        | true =>
          simp only [hcap, if_false, if_true, List.length_cons]
          push_cast
          omega
  · simpa [hallow] using h

theorem length_stopExporter_le (port : Int) (t : EMState) :
    (stopExporter port t).exporters.length ≤ t.exporters.length := by
  cases hl : lookupExporter port t.exporters with
  | none => simp [stopExporter, hl]
  | some e =>
    simp only [stopExporter, hl]
    exact length_eraseExporter_le port t.exporters

theorem length_emStep_le (config : Config) (m : EMsg) (s : EMState)
    (h : (s.exporters.length : Int) ≤ config.ExportMax) :
    ((emStep config s m).exporters.length : Int) ≤ config.ExportMax := by
  cases m with
  | listen ok port => exact length_handleListen_le config ok port s h
  | close port =>
    show ((handleClose port s).exporters.length : Int) ≤ config.ExportMax
    cases hl : lookupExporter port s.exporters with
    | none => simpa [handleClose, hl] using h
    | some e =>
      have hlen' : ((updateExporter port
          (fun e => { e with refcount := e.refcount - 1 }) s.exporters).length : Int)
            ≤ config.ExportMax := by
        simpa [length_updateExporter] using h
      by_cases hz : e.refcount - 1 ≤ 0
      · simp only [handleClose, hl, hz, if_true]
        have h1 := length_stopExporter_le port
          ⟨updateExporter port (fun e => { e with refcount := e.refcount - 1 }) s.exporters,
            s.stopped⟩
        calc ((stopExporter port
              ⟨updateExporter port (fun e => { e with refcount := e.refcount - 1 }) s.exporters,
                s.stopped⟩).exporters.length : Int)
            ≤ ((updateExporter port
                (fun e => { e with refcount := e.refcount - 1 }) s.exporters).length : Int) := by
              exact_mod_cast h1
          _ ≤ config.ExportMax := hlen'
      · simpa [handleClose, hl, hz] using hlen'

theorem length_emRun_le (config : Config) (ms : List EMsg) (s : EMState)
    (h : (s.exporters.length : Int) ≤ config.ExportMax) :
    ((emRun config s ms).exporters.length : Int) ≤ config.ExportMax := by
  induction ms generalizing s with
  | nil => exact h
  | cons m rest ih => exact ih _ (length_emStep_le config m s h)

/-- Claim C4: starting from the empty exporter map, the number of map
entries never exceeds `export-max` along any sequence of control
messages; and a LISTEN for an absent port arriving when the map already
holds exactly `export-max` entries leaves the map unchanged. -/
theorem exporter_map_capped (config : Config) (hmax : 0 ≤ config.ExportMax) :
    (∀ ms : List EMsg,
       ((emRun config emInit ms).exporters.length : Int) ≤ config.ExportMax)
  ∧ (∀ (s : EMState) (listenOk : Bool) (port : Int),
       lookupExporter port s.exporters = none →
       (s.exporters.length : Int) = config.ExportMax →
       (handleListen config listenOk port s).exporters = s.exporters) := by
  constructor
  · intro ms
    exact length_emRun_le config ms emInit (by simpa [emInit] using hmax)
  · intro s listenOk port habs hfull
    unfold handleListen
    by_cases hallow : isPortAllowed config port = true
    · simp [hallow, habs, ge_iff_le, hfull.ge]
    · simp [hallow]

/-- Capacity-one configuration with an open policy, used to instantiate
the cap theorem. -/
def capConfig : Config :=
  { ExitNode := "", Hostname := "tailproxy", AuthKey := "",
    ProxyPort := 1080, Verbose := false, ExportListeners := true,
    ExportAllowPorts := "", ExportDenyPorts := "", ExportMax := 1 }

/-- A state already holding one exporter entry (for port 5). -/
def fullState : EMState :=
  ⟨[(5, { port := 5, refcount := 1, cancelled := false, listenerClosed := false })], []⟩

theorem exporter_map_capped_witness :
    ((emRun capConfig emInit
        [EMsg.listen true 7, EMsg.listen true 8]).exporters.length : Int) ≤ 1
  ∧ (handleListen capConfig true 7 fullState).exporters = fullState.exporters := by
  constructor
  · exact (exporter_map_capped capConfig (by decide)).1 [EMsg.listen true 7, EMsg.listen true 8]
  · exact (exporter_map_capped capConfig (by decide)).2 fullState true 7 (by decide) (by decide)

/-! ### Claim C5: N LISTENs followed by N CLOSEs remove the entry -/

def listenMsgs (oks : List Bool) (port : Int) : List EMsg :=
  oks.map (fun ok => EMsg.listen ok port)

def closeMsgs (n : Nat) (port : Int) : List EMsg :=
  List.replicate n (EMsg.close port)

/-- Invariant of the LISTEN phase: the port is absent, or present with a
refcount between 1 and the number of LISTEN messages seen so far. -/
def listenBound (port : Int) (k : Nat) (s : EMState) : Prop :=
  lookupExporter port s.exporters = none ∨
  ∃ e, lookupExporter port s.exporters = some e ∧ 1 ≤ e.refcount ∧ e.refcount ≤ (k : Int)

theorem listenBound_handleListen (config : Config) (ok : Bool) (port : Int)
    (k : Nat) (s : EMState) (h : listenBound port k s) :
    listenBound port (k + 1) (handleListen config ok port s) := by
  unfold handleListen
  by_cases hallow : isPortAllowed config port = true
  · cases h with
    | inl habs =>
      simp only [hallow, not_true_eq_false, if_false, habs]
      by_cases hcap : (s.exporters.length : Int) ≥ config.ExportMax
      · rw [if_pos hcap]
        exact Or.inl habs
      · rw [if_neg hcap]
        cases ok with
        | false =>
          simp only [Bool.false_eq_true, if_false]
          exact Or.inl habs
        | true =>
          simp only [if_true]
          refine Or.inr ⟨⟨port, 1, false, false⟩, ?_, ?_, ?_⟩
          · simp [lookupExporter]
          · exact le_refl 1
          · show (1 : Int) ≤ ((k + 1 : Nat) : Int)
            push_cast
            omega
    | inr hsome =>
      obtain ⟨e, he, h1, h2⟩ := hsome
      simp only [hallow, not_true_eq_false, if_false, he]
      refine Or.inr ⟨{ e with refcount := e.refcount + 1 }, ?_, ?_, ?_⟩
      · show lookupExporter port (updateExporter port
          (fun e => { e with refcount := e.refcount + 1 }) s.exporters) = _
        rw [lookupExporter_update_self, he]
        rfl
      · show 1 ≤ e.refcount + 1
        omega
      · show e.refcount + 1 ≤ ((k + 1 : Nat) : Int)
        push_cast at h2 ⊢
        omega
  · simp only [hallow, not_false_eq_true, if_true]
    cases h with
    | inl habs => exact Or.inl habs
    | inr hsome =>
      obtain ⟨e, he, h1, h2⟩ := hsome
      refine Or.inr ⟨e, he, h1, ?_⟩
      push_cast at h2 ⊢
      omega

theorem listenBound_phase (config : Config) (port : Int) :
    ∀ (oks : List Bool) (s : EMState) (k : Nat),
    listenBound port k s →
    listenBound port (k + oks.length) (emRun config s (listenMsgs oks port)) := by
  intro oks
  induction oks with
  | nil =>
    intro s k h
    simpa [listenMsgs, emRun] using h
  | cons ok rest ih =>
    intro s k h
    have h1 := listenBound_handleListen config ok port k s h
    have h2 := ih (handleListen config ok port s) (k + 1) h1
    have harith : k + 1 + rest.length = k + (ok :: rest).length := by
      simp
      omega
    rw [← harith]
    simpa [listenMsgs, emRun] using h2

theorem close_phase (config : Config) (port : Int) :
    ∀ (n : Nat) (s : EMState), listenBound port n s →
    lookupExporter port (emRun config s (closeMsgs n port)).exporters = none := by
  intro n
  induction n with
  | zero =>
    intro s h
    cases h with
    | inl habs => simpa [closeMsgs, emRun] using habs
    | inr hsome =>
      obtain ⟨e, _, h1, h2⟩ := hsome
      exfalso
      push_cast at h2
      omega
  | succ n ih =>
    intro s h
    have hstep : emRun config s (closeMsgs (n + 1) port)
        = emRun config (handleClose port s) (closeMsgs n port) := by
      simp [closeMsgs, emRun, List.replicate_succ, emStep]
    rw [hstep]
    cases h with
    | inl habs =>
      have hid : handleClose port s = s := by simp [handleClose, habs]
      rw [hid]
      exact ih s (Or.inl habs)
    | inr hsome =>
      obtain ⟨e, he, h1, h2⟩ := hsome
      by_cases hz : e.refcount - 1 ≤ 0
      · have hcl : handleClose port s = stopExporter port
            { s with exporters :=
                updateExporter port (fun e => { e with refcount := e.refcount - 1 }) s.exporters } := by
          simp [handleClose, he, hz]
        rw [hcl]
        apply ih
        refine Or.inl ?_
        show lookupExporter port (stopExporter port _).exporters = none
        cases hl' : lookupExporter port (updateExporter port
            (fun e => { e with refcount := e.refcount - 1 }) s.exporters) with
        | none => simp [stopExporter, hl']
        | some e' =>
          simp only [stopExporter, hl']
          exact lookupExporter_erase_self port _
      · have hcl : handleClose port s =
            { s with exporters :=
                updateExporter port (fun e => { e with refcount := e.refcount - 1 }) s.exporters } := by
          simp [handleClose, he, hz]
        rw [hcl]
        apply ih
        refine Or.inr ⟨{ e with refcount := e.refcount - 1 }, ?_, ?_, ?_⟩
        · show lookupExporter port (updateExporter port
            (fun e => { e with refcount := e.refcount - 1 }) s.exporters) = _
          rw [lookupExporter_update_self, he]
          rfl
        · show 1 ≤ e.refcount - 1
          omega
        · show e.refcount - 1 ≤ (n : Int)
          push_cast at h2 ⊢
          omega

theorem stopped_handleListen (config : Config) (ok : Bool) (port : Int) (s : EMState) :
    (handleListen config ok port s).stopped = s.stopped := by
  unfold handleListen
  by_cases hallow : isPortAllowed config port = true
  · cases hl : lookupExporter port s.exporters with
    | some e => simp [hallow, hl]
    | none =>
      by_cases hcap : (s.exporters.length : Int) ≥ config.ExportMax
      · simp [hallow, hl, hcap]
      · cases ok <;> simp [hallow, hl, hcap]
  · simp [hallow]

theorem stopped_emStep (config : Config) (m : EMsg) (s : EMState) :
    ∀ e ∈ (emStep config s m).stopped,
      e ∈ s.stopped ∨ (e.cancelled = true ∧ e.listenerClosed = true) := by
  intro e he
  cases m with
  | listen ok port =>
    rw [show emStep config s (EMsg.listen ok port) = handleListen config ok port s from rfl,
      stopped_handleListen] at he
    exact Or.inl he
  | close port =>
    rw [show emStep config s (EMsg.close port) = handleClose port s from rfl] at he
    cases hl : lookupExporter port s.exporters with
    | none =>
      rw [show handleClose port s = s from by simp [handleClose, hl]] at he
      exact Or.inl he
    | some ex =>
      by_cases hz : ex.refcount - 1 ≤ 0
      · rw [show handleClose port s = stopExporter port
            { s with exporters :=
                updateExporter port (fun e => { e with refcount := e.refcount - 1 }) s.exporters } from by
          simp [handleClose, hl, hz]] at he
        cases hl' : lookupExporter port (updateExporter port
            (fun e => { e with refcount := e.refcount - 1 }) s.exporters) with
        | none =>
          rw [show stopExporter port
              { s with exporters :=
                  updateExporter port (fun e => { e with refcount := e.refcount - 1 }) s.exporters } =
              { s with exporters :=
                  updateExporter port (fun e => { e with refcount := e.refcount - 1 }) s.exporters } from by
            simp [stopExporter, hl']] at he
          exact Or.inl he
        | some e' =>
          simp only [stopExporter, hl', List.mem_append, List.mem_singleton] at he
          cases he with
          | inl h0 => exact Or.inl h0
          | inr h1 => exact Or.inr (by simp [h1])
      · rw [show handleClose port s =
            { s with exporters :=
                updateExporter port (fun e => { e with refcount := e.refcount - 1 }) s.exporters } from by
          simp [handleClose, hl, hz]] at he
        exact Or.inl he

theorem stopped_emRun (config : Config) (ms : List EMsg) :
    ∀ (s : EMState), ∀ e ∈ (emRun config s ms).stopped,
      e ∈ s.stopped ∨ (e.cancelled = true ∧ e.listenerClosed = true) := by
  induction ms with
  | nil =>
    intro s e he
    exact Or.inl he
  | cons m rest ih =>
    intro s e he
    have h1 := ih (emStep config s m) e (by simpa [emRun] using he)
    cases h1 with
    | inl h0 => exact stopped_emStep config m s e h0
    | inr h1 => exact Or.inr h1

/-- Claim C5: for every port and every N ≥ 1, N LISTEN messages for the
port (whatever the outcome of each overlay-listen attempt) followed by
N CLOSE messages leave the exporter map without an entry for the port;
every exporter stopped along the way had its cancellation handle invoked
and its overlay listener closed. -/
theorem listen_close_roundtrip (config : Config) (s : EMState) (port : Int)
    (oks : List Bool) (_hN : 1 ≤ oks.length)
    (habs : lookupExporter port s.exporters = none) :
    lookupExporter port
        (emRun config s (listenMsgs oks port ++ closeMsgs oks.length port)).exporters = none
  ∧ ∀ e ∈ (emRun config s (listenMsgs oks port ++ closeMsgs oks.length port)).stopped,
      e ∈ s.stopped ∨ (e.cancelled = true ∧ e.listenerClosed = true) := by
  have hrun : emRun config s (listenMsgs oks port ++ closeMsgs oks.length port)
      = emRun config (emRun config s (listenMsgs oks port)) (closeMsgs oks.length port) := by
    simp [emRun, List.foldl_append]
  constructor
  · rw [hrun]
    apply close_phase
    have h0 := listenBound_phase config port oks s 0 (Or.inl habs)
    simpa using h0
  · intro e he
    rw [hrun] at he
    have h1 := stopped_emRun config (closeMsgs oks.length port) _ e he
    cases h1 with
    | inl h0 => exact stopped_emRun config (listenMsgs oks port) s e h0
    | inr h1 => exact Or.inr h1

theorem listen_close_roundtrip_witness :
    lookupExporter 8080
        (emRun policyConfig emInit
          (listenMsgs [true] 8080 ++ closeMsgs 1 8080)).exporters = none :=
  (listen_close_roundtrip policyConfig emInit 8080 [true] (by decide) rfl).1

/-! ### Claim C9: the family field of a control record is never consulted -/

theorem processLine_eq (config : Config) (listenOk : Bool) (s : EMState)
    (line : String) (port : Int)
    (h3 : 3 ≤ (fieldsChars (trimChars line.data)).length)
    (hport : atoiChars ((fieldsChars (trimChars line.data)).getD 2 []) = some port) :
    processLine config listenOk line s =
      (if (fieldsChars (trimChars line.data)).getD 0 [] = "LISTEN".data then
        handleListen config listenOk port s
      else if (fieldsChars (trimChars line.data)).getD 0 [] = "CLOSE".data then
        handleClose port s
      else s) := by
  have hemp : (trimChars line.data).isEmpty = false := by
    cases hv : (trimChars line.data) with
    | nil =>
      rw [hv] at h3
      exact absurd h3 (by decide)
    | cons c rest => rfl
  have hlt : ¬ ((fieldsChars (trimChars line.data)).length < 3) := by omega
  simp only [processLine, hemp, Bool.false_eq_true, if_false, hlt, if_neg hlt, hport]
  simp [beq_iff_eq]

/-- Claim C9: a control record of at least three whitespace-separated
fields whose command is LISTEN or CLOSE and whose third field parses as
an integer is processed whatever its second (family) field holds: the
resulting state is determined by the command and the port alone, so it
is identical for any two records agreeing on those, and the family token
is never compared against tcp4/tcp6. -/
theorem control_family_ignored (config : Config) (listenOk : Bool) (s : EMState)
    (line : String) (port : Int)
    (h3 : 3 ≤ (fieldsChars (trimChars line.data)).length)
    (hcmd : (fieldsChars (trimChars line.data)).getD 0 [] = "LISTEN".data ∨
            (fieldsChars (trimChars line.data)).getD 0 [] = "CLOSE".data)
    (hport : atoiChars ((fieldsChars (trimChars line.data)).getD 2 []) = some port) :
    processLine config listenOk line s =
      (if (fieldsChars (trimChars line.data)).getD 0 [] = "LISTEN".data then
        handleListen config listenOk port s
      else handleClose port s)
  ∧ ∀ line₂ : String,
      3 ≤ (fieldsChars (trimChars line₂.data)).length →
      (fieldsChars (trimChars line₂.data)).getD 0 []
        = (fieldsChars (trimChars line.data)).getD 0 [] →
      atoiChars ((fieldsChars (trimChars line₂.data)).getD 2 []) = some port →
      processLine config listenOk line₂ s = processLine config listenOk line s := by
  constructor
  · rw [processLine_eq config listenOk s line port h3 hport]
    cases hcmd with
    | inl hL =>
      rw [hL, if_pos rfl, if_pos rfl]
    | inr hC =>
      have hne : ¬ ("CLOSE".data = "LISTEN".data) := by decide
      rw [hC, if_neg hne, if_neg hne, if_pos rfl]
  · intro line₂ h3b hsame hportb
    rw [processLine_eq config listenOk s line₂ port h3b hportb,
      processLine_eq config listenOk s line port h3 hport, hsame]

theorem control_family_ignored_witness :
    processLine capConfig true "LISTEN hyperwave 8080" emInit
      = handleListen capConfig true 8080 emInit
  ∧ processLine capConfig true "LISTEN tcp9 8080" emInit
      = processLine capConfig true "LISTEN hyperwave 8080" emInit := by
  have h := control_family_ignored capConfig true emInit "LISTEN hyperwave 8080" 8080
    (by decide) (Or.inl (by decide)) (by decide)
  constructor
  · have h1 := h.1
    rw [if_pos (by decide)] at h1
    exact h1
  · exact h.2 "LISTEN tcp9 8080" (by decide) (by decide) (by decide)

/-! ### FD table (preload.c: `fd_table`, shims for bind/listen/close)

The child-side table maps file descriptors to `fd_info_t`. The kernel's
answers (socket type, `getsockname` result) are inputs of each
operation. Only the table-affecting branches are modelled; emitting a
control message has no effect on the table. -/

def MAX_FDS : Nat := 65536
def AF_INET : Nat := 2
def AF_INET6 : Nat := 10

structure fd_info where
  is_tcp : Bool
  is_listener : Bool
  family : Nat
  port : Nat
deriving DecidableEq

/-- The zero-initialised entry (`memset` in `init_preload` / `close`). -/
def fdZero : fd_info := ⟨false, false, 0, 0⟩

def fdInit : Nat → fd_info := fun _ => fdZero

def fdUpdate (t : Nat → fd_info) (fd : Nat) (e : fd_info) : Nat → fd_info :=
  fun n => if n = fd then e else t n

/-- One interposed call, with the kernel inputs it consumes:
* `bindOp fd isStream family` — a `bind` on a socket whose `SO_TYPE`
  query reported stream (or not), carrying the address family;
* `listenOp fd retOk sockname` — a `listen` whose underlying call
  returned success iff `retOk`, `sockname` being the `getsockname`
  answer (`none` = the query failed; `some (family, port)` otherwise);
* `closeOp fd` — a `close`. -/
inductive FdOp where
  | bindOp (fd : Nat) (isStream : Bool) (family : Nat)
  | listenOp (fd : Nat) (retOk : Bool) (sockname : Option (Nat × Nat))
  | closeOp (fd : Nat)
deriving DecidableEq

/-- Effect of one interposed call on the FD table (preload.c `bind`,
`listen`, `close`). `bind` records is_tcp and the family for in-range
stream sockets when export is enabled; `listen` (after a successful
underlying call) marks a tracked TCP fd as listener and stores the port
learnt from `getsockname` (0 when the reported family is neither
AF_INET nor AF_INET6; untouched when the query fails); `close` clears
the entry. -/
def applyFdOp (exportEnabled : Bool) (t : Nat → fd_info) : FdOp → (Nat → fd_info)
  | .bindOp fd isStream fam =>
    if exportEnabled = true ∧ isStream = true ∧ fd < MAX_FDS then
      fdUpdate t fd { t fd with is_tcp := true, family := fam }
    else t
  | .listenOp fd retOk sockname =>
    if retOk = false then t
    else if exportEnabled = true ∧ fd < MAX_FDS ∧ (t fd).is_tcp = true then
      match sockname with
      | none => fdUpdate t fd { t fd with is_listener := true }
      | some (fam, p) =>
        let port := if fam = AF_INET ∨ fam = AF_INET6 then p else 0
        fdUpdate t fd { t fd with is_listener := true, port := port }
    else t
  | .closeOp fd =>
    if exportEnabled = true ∧ fd < MAX_FDS then fdUpdate t fd fdZero
    else t

def applyFdOps (exportEnabled : Bool) (ops : List FdOp) (t : Nat → fd_info) :
    Nat → fd_info :=
  ops.foldl (applyFdOp exportEnabled) t

/-- The claimed FD-table invariant: a set listener flag implies the TCP
flag and a strictly positive recorded port. -/
def FdInvariant (t : Nat → fd_info) : Prop :=
  ∀ fd, (t fd).is_listener = true → (t fd).is_tcp = true ∧ 0 < (t fd).port

/-- A listen step whose `getsockname` answer exists, names an IPv4/IPv6
family, and carries a strictly positive port; other steps place no
condition. -/
def goodFdOp : FdOp → Bool
  | .listenOp _ _ sockname =>
    match sockname with
    | some (fam, p) => (fam == AF_INET || fam == AF_INET6) && decide (0 < p)
    | none => false
  | _ => true

/-- Claim C2 counterexample: after a tracked TCP bind, a successful
listen whose `getsockname` query fails leaves the entry with the
listener flag set and port 0, violating the claimed invariant. -/
theorem fd_listener_invariant_cex :
    ¬ FdInvariant (applyFdOps true
        [FdOp.bindOp 3 true AF_INET, FdOp.listenOp 3 true none] fdInit) := by
  intro h
  have h3 := h 3 (by decide)
  exact absurd h3.2 (by decide)

theorem listener_tcp_applyFdOp (exportEnabled : Bool) (t : Nat → fd_info) (op : FdOp)
    (h : ∀ fd, (t fd).is_listener = true → (t fd).is_tcp = true) :
    ∀ fd, ((applyFdOp exportEnabled t op) fd).is_listener = true →
      ((applyFdOp exportEnabled t op) fd).is_tcp = true := by
  intro fd
  cases op with
  | bindOp fd0 isStream fam =>
    by_cases hg : exportEnabled = true ∧ isStream = true ∧ fd0 < MAX_FDS
    · simp only [applyFdOp, if_pos hg, fdUpdate]
      by_cases hfd : fd = fd0
      · simp [hfd]
      · simp only [if_neg hfd]
        exact h fd
    · simp only [applyFdOp, if_neg hg]
      exact h fd
  | listenOp fd0 retOk sockname =>
    by_cases hret : retOk = false
    · simp only [applyFdOp, if_pos hret]
      exact h fd
    · by_cases hg : exportEnabled = true ∧ fd0 < MAX_FDS ∧ (t fd0).is_tcp = true
      · cases sockname with
        | none =>
          simp only [applyFdOp, if_neg hret, if_pos hg, fdUpdate]
          by_cases hfd : fd = fd0
          · intro _
            simpa [hfd] using hg.2.2
          · simp only [if_neg hfd]
            exact h fd
        | some fp =>
          simp only [applyFdOp, if_neg hret, if_pos hg, fdUpdate]
          by_cases hfd : fd = fd0
          · intro _
            simpa [hfd] using hg.2.2
          · simp only [if_neg hfd]
            exact h fd
      · cases sockname with
        | none =>
          simp only [applyFdOp, if_neg hret, if_neg hg]
          exact h fd
        | some fp =>
          simp only [applyFdOp, if_neg hret, if_neg hg]
          exact h fd
  | closeOp fd0 =>
    by_cases hg : exportEnabled = true ∧ fd0 < MAX_FDS
    · simp only [applyFdOp, if_pos hg, fdUpdate]
      by_cases hfd : fd = fd0
      · simp [hfd, fdZero]
      · simp only [if_neg hfd]
        exact h fd
    · simp only [applyFdOp, if_neg hg]
      exact h fd

theorem fdInvariant_applyFdOp (exportEnabled : Bool) (t : Nat → fd_info) (op : FdOp)
    (hop : goodFdOp op = true) (h : FdInvariant t) :
    FdInvariant (applyFdOp exportEnabled t op) := by
  intro fd
  cases op with
  | bindOp fd0 isStream fam =>
    by_cases hg : exportEnabled = true ∧ isStream = true ∧ fd0 < MAX_FDS
    · simp only [applyFdOp, if_pos hg, fdUpdate]
      by_cases hfd : fd = fd0
      · rw [if_pos hfd]
        intro hls
        exact ⟨rfl, (h fd0 hls).2⟩
      · simp only [if_neg hfd]
        exact h fd
    · simp only [applyFdOp, if_neg hg]
      exact h fd
  | listenOp fd0 retOk sockname =>
    by_cases hret : retOk = false
    · simp only [applyFdOp, if_pos hret]
      exact h fd
    · by_cases hg : exportEnabled = true ∧ fd0 < MAX_FDS ∧ (t fd0).is_tcp = true
      · cases sockname with
        | none => exact absurd hop (by simp [goodFdOp])
        | some fp =>
          obtain ⟨fam, p⟩ := fp
          have hfam : (fam = AF_INET ∨ fam = AF_INET6) ∧ 0 < p := by
            simpa [goodFdOp, decide_eq_true_iff] using hop
          simp only [applyFdOp, if_neg hret, if_pos hg, fdUpdate]
          by_cases hfd : fd = fd0
          · intro _
            refine ⟨by simpa [hfd] using hg.2.2, ?_⟩
            simpa [hfd, if_pos hfam.1] using hfam.2
          · simp only [if_neg hfd]
            exact h fd
      · cases sockname with
        | none =>
          simp only [applyFdOp, if_neg hret, if_neg hg]
          exact h fd
        | some fp =>
          simp only [applyFdOp, if_neg hret, if_neg hg]
          exact h fd
  | closeOp fd0 =>
    by_cases hg : exportEnabled = true ∧ fd0 < MAX_FDS
    · simp only [applyFdOp, if_pos hg, fdUpdate]
      by_cases hfd : fd = fd0
      · simp [hfd, fdZero]
      · simp only [if_neg hfd]
        exact h fd
    · simp only [applyFdOp, if_neg hg]
      exact h fd

theorem listener_tcp_applyFdOps (exportEnabled : Bool) :
    ∀ (ops : List FdOp) (t : Nat → fd_info),
    (∀ fd, (t fd).is_listener = true → (t fd).is_tcp = true) →
    ∀ fd, ((applyFdOps exportEnabled ops t) fd).is_listener = true →
      ((applyFdOps exportEnabled ops t) fd).is_tcp = true := by
  intro ops
  induction ops with
  | nil =>
    intro t h fd
    exact h fd
  | cons op rest ih =>
    intro t h fd
    exact ih (applyFdOp exportEnabled t op)
      (listener_tcp_applyFdOp exportEnabled t op h) fd

theorem fdInvariant_applyFdOps (exportEnabled : Bool) :
    ∀ (ops : List FdOp) (t : Nat → fd_info),
    (∀ op ∈ ops, goodFdOp op = true) → FdInvariant t →
    FdInvariant (applyFdOps exportEnabled ops t) := by
  intro ops
  induction ops with
  | nil =>
    intro t _ h
    exact h
  | cons op rest ih =>
    intro t hgood h
    exact ih (applyFdOp exportEnabled t op)
      (fun o ho => hgood o (List.mem_cons_of_mem op ho))
      (fdInvariant_applyFdOp exportEnabled t op (hgood op (List.mem_cons_self op rest)) h)

/-- Claim C2 (amended): along every trace of interposed calls from the
zero-initialised table, a set listener flag always implies the TCP
flag; and provided every successful listen's `getsockname` query
succeeds reporting an IPv4/IPv6 family and a strictly positive port —
the case the source cannot rule out but the kernel guarantees for a
listening TCP socket — every listener-flagged entry also records a
strictly positive port. -/
theorem fd_listener_invariant (exportEnabled : Bool) (ops : List FdOp) :
    (∀ fd, ((applyFdOps exportEnabled ops fdInit) fd).is_listener = true →
       ((applyFdOps exportEnabled ops fdInit) fd).is_tcp = true)
  ∧ ((∀ op ∈ ops, goodFdOp op = true) →
       FdInvariant (applyFdOps exportEnabled ops fdInit)) := by
  constructor
  · exact listener_tcp_applyFdOps exportEnabled ops fdInit (fun fd h => by
      exact absurd h (by simp [fdInit, fdZero]))
  · intro hgood
    exact fdInvariant_applyFdOps exportEnabled ops fdInit hgood (fun fd h => by
      exact absurd h (by simp [fdInit, fdZero]))

theorem fd_listener_invariant_witness :
    ((applyFdOps true [FdOp.bindOp 3 true AF_INET,
        FdOp.listenOp 3 true (some (AF_INET, 8080))] fdInit) 3).is_tcp = true
  ∧ 0 < ((applyFdOps true [FdOp.bindOp 3 true AF_INET,
        FdOp.listenOp 3 true (some (AF_INET, 8080))] fdInit) 3).port := by
  have h := (fd_listener_invariant true [FdOp.bindOp 3 true AF_INET,
    FdOp.listenOp 3 true (some (AF_INET, 8080))]).2 (by decide)
  exact h 3 (by decide)

/-! ### Claim C6: bind rewrites non-loopback addresses to loopback -/

/-- A socket address as the bind shim inspects it: an IPv4 address is
the 32-bit host-order value of `sin_addr` with its 16-bit port, an IPv6
address its 16 bytes with its port, anything else just a family. -/
inductive SockAddr where
  | inet (ip : Nat) (port : Nat)
  | inet6 (addr : List Nat) (port : Nat)
  | other (family : Nat)
deriving DecidableEq

/-- Constant `IN6ADDR_LOOPBACK_INIT` (::1) as 16 bytes. -/
def in6addr_loopback : List Nat := [0, 0, 0, 0, 0, 0, 0, 0, 0, 0, 0, 0, 0, 0, 0, 1]

/-- preload.c `bind`: the address handed to the original bind.
`isStream` is the kernel's `SO_TYPE == SOCK_STREAM` answer; when export
is disabled or the socket is not a stream socket the caller's address
passes through untouched. -/
def bindRewrite (exportEnabled : Bool) (isStream : Bool) (a : SockAddr) : SockAddr :=
  if exportEnabled = false then a
  else if isStream = false then a
  else
    match a with
    | .inet ip port =>
      if ip.land 0xFF000000 ≠ 0x7F000000 then .inet 0x7F000001 port else a
    | .inet6 addr port =>
      if addr ≠ in6addr_loopback then .inet6 in6addr_loopback port else a
    | .other _ => a

/-- Claim C6: with export enabled, a bind on a TCP socket rewrites a
non-loopback IPv4 address (outside 127.0.0.0/8) to 127.0.0.1 and a
non-loopback IPv6 address (anything but ::1) to ::1, preserving the
requested port, while addresses already on loopback pass through
unchanged — this result being the address handed to the original bind. -/
theorem bind_rewrites_to_loopback :
    (∀ ip port : Nat, ip.land 0xFF000000 ≠ 0x7F000000 →
       bindRewrite true true (.inet ip port) = .inet 0x7F000001 port)
  ∧ (∀ (addr : List Nat) (port : Nat), addr ≠ in6addr_loopback →
       bindRewrite true true (.inet6 addr port) = .inet6 in6addr_loopback port)
  ∧ (∀ ip port : Nat, ip.land 0xFF000000 = 0x7F000000 →
       bindRewrite true true (.inet ip port) = .inet ip port)
  ∧ (∀ port : Nat,
       bindRewrite true true (.inet6 in6addr_loopback port) = .inet6 in6addr_loopback port) := by
  refine ⟨?_, ?_, ?_, ?_⟩
  · intro ip port h
    simp [bindRewrite, h]
  · intro addr port h
    simp [bindRewrite, h]
  · intro ip port h
    simp [bindRewrite, h]
  · intro port
    simp [bindRewrite]

theorem bind_rewrites_to_loopback_witness :
    bindRewrite true true (.inet 0 8080) = .inet 0x7F000001 8080
  ∧ bindRewrite true true (.inet6 (List.replicate 16 0) 8080)
      = .inet6 in6addr_loopback 8080
  ∧ bindRewrite true true (.inet 0x7F000002 8080) = .inet 0x7F000002 8080 := by
  refine ⟨?_, ?_, ?_⟩
  · exact bind_rewrites_to_loopback.1 0 8080 (by decide)
  · exact bind_rewrites_to_loopback.2.1 (List.replicate 16 0) 8080 (by decide)
  · exact bind_rewrites_to_loopback.2.2.1 0x7F000002 8080 (by decide)

/-! ### Claim C7: unsupported SOCKS5 address type (proxy.go) -/

/-- Observable outcome of the request phase of
`ProxyServer.handleConnection` (after the greeting): drop the
connection silently, write a 10-byte reply and close, or proceed to
the overlay dial with the parsed destination (address type, raw address
bytes, port). The textual rendering of the host is abstracted to the
parsed fields — no claim depends on it. -/
inductive SocksOutcome where
  | silentClose
  | reply (bytes : List Nat)
  | dial (atyp : Nat) (addr : List Nat) (port : Nat)
deriving DecidableEq

/-- Request handling of `handleConnection`, parameterised by the bytes
the request read returned (`n` in the source is their count). -/
def socksRequestOutcome (buf : List Nat) : SocksOutcome :=
  let n := buf.length
  if n < 7 ∨ buf.getD 0 0 ≠ 5 then .silentClose
  else if buf.getD 1 0 ≠ 1 then .reply [5, 7, 0, 1, 0, 0, 0, 0, 0, 0]
  else if buf.getD 3 0 = 1 then
    if n < 10 then .silentClose
    else .dial 1 ((buf.drop 4).take 4) (256 * buf.getD 8 0 + buf.getD 9 0)
  else if buf.getD 3 0 = 3 then
    if n < 5 then .silentClose
    else
      let addrLen := buf.getD 4 0
      if n < 5 + addrLen + 2 then .silentClose
      else .dial 3 ((buf.drop 5).take addrLen)
        (256 * buf.getD (5 + addrLen) 0 + buf.getD (5 + addrLen + 1) 0)
  else if buf.getD 3 0 = 4 then
    if n < 22 then .silentClose
    else .dial 4 ((buf.drop 4).take 16) (256 * buf.getD 20 0 + buf.getD 21 0)
  else .reply [5, 8, 0, 1, 0, 0, 0, 0, 0, 0]

/-- Claim C7: a CONNECT request whose address-type byte is none of 0x01,
0x03, 0x04 makes the server write the reply 05 08 00 01 followed by six
zero BND bytes and close, never reaching the overlay dial. -/
theorem socks_unknown_atyp (buf : List Nat)
    (hlen : 7 ≤ buf.length) (hver : buf.getD 0 0 = 5) (hcmd : buf.getD 1 0 = 1)
    (hatyp : buf.getD 3 0 ≠ 1 ∧ buf.getD 3 0 ≠ 3 ∧ buf.getD 3 0 ≠ 4) :
    socksRequestOutcome buf = .reply [5, 8, 0, 1, 0, 0, 0, 0, 0, 0] := by
  unfold socksRequestOutcome
  rw [if_neg (by
    push_neg
    exact ⟨by omega, hver⟩)]
  rw [if_neg (not_not_intro hcmd)]
  rw [if_neg hatyp.1, if_neg hatyp.2.1, if_neg hatyp.2.2]

theorem socks_unknown_atyp_witness :
    socksRequestOutcome [5, 1, 0, 2, 0, 0, 0] = .reply [5, 8, 0, 1, 0, 0, 0, 0, 0, 0] :=
  socks_unknown_atyp [5, 1, 0, 2, 0, 0, 0] (by decide) (by decide) (by decide)
    ⟨by decide, by decide, by decide⟩

/-! ### Configuration loading and the supervisor coordinator
(config.go `LoadConfig`, main.go `main`) -/

/-- The parsed configuration file: `some v` when the key is present.
Go's JSON unmarshalling zero-fills missing keys. -/
structure ConfigFile where
  exit_node : Option String
  hostname : Option String
  authkey : Option String
  proxy_port : Option Int
  verbose : Option Bool
  export_listeners : Option Bool
  export_allow_ports : Option String
  export_deny_ports : Option String
  export_max : Option Int

/-- config.go `LoadConfig` after a successful parse: zero values for
missing keys, then the default block for Hostname, ProxyPort and
ExportMax. -/
def LoadConfig (f : ConfigFile) : Config :=
  let config : Config :=
    { ExitNode := f.exit_node.getD "", Hostname := f.hostname.getD "",
      AuthKey := f.authkey.getD "", ProxyPort := f.proxy_port.getD 0,
      Verbose := f.verbose.getD false,
      ExportListeners := f.export_listeners.getD false,
      ExportAllowPorts := f.export_allow_ports.getD "",
      ExportDenyPorts := f.export_deny_ports.getD "",
      ExportMax := f.export_max.getD 0 }
  { config with
    Hostname := if config.Hostname = "" then "tailproxy" else config.Hostname,
    ProxyPort := if config.ProxyPort = 0 then 1080 else config.ProxyPort,
    ExportMax := if config.ExportMax = 0 then 32 else config.ExportMax }

/-- main.go flag values after `flag.Parse` (each holds its declared
default when the flag is not supplied on the command line). -/
structure Flags where
  exitNode : String
  configFile : String
  hostname : String
  authKey : String
  proxyPort : Int
  verbose : Bool

/-- main.go: the flag-override block run after `LoadConfig`: only
exit-node, hostname and authkey are copied into the configuration, each
only when its value differs from the flag default; the port and verbose
flags are never copied. -/
def applyFlagOverrides (fl : Flags) (config : Config) : Config :=
  let config :=
    if fl.exitNode ≠ "" then { config with ExitNode := fl.exitNode } else config
  let config :=
    if fl.hostname ≠ "tailproxy" then { config with Hostname := fl.hostname } else config
  if fl.authKey ≠ "" then { config with AuthKey := fl.authKey } else config

/-- The flags main.go declares (`flag.String`/`flag.Int`/`flag.Bool`). -/
def recognizedFlags : List String :=
  ["exit-node", "config", "hostname", "authkey", "port", "verbose"]

/-- main.go command mode: the variables appended to the inherited
environment of the child. -/
def childEnvVars (config : Config) (preloadLib : String) : List (String × String) :=
  [("LD_PRELOAD", preloadLib),
   ("TAILPROXY_HOST", "127.0.0.1"),
   ("TAILPROXY_PORT", toString config.ProxyPort)]
  ++ (if config.Verbose then [("TAILPROXY_VERBOSE", "1")] else [])

theorem childEnvVars_keys (config : Config) (lib : String) :
    (childEnvVars config lib).map Prod.fst =
      if config.Verbose then
        ["LD_PRELOAD", "TAILPROXY_HOST", "TAILPROXY_PORT", "TAILPROXY_VERBOSE"]
      else
        ["LD_PRELOAD", "TAILPROXY_HOST", "TAILPROXY_PORT"] := by
  cases hv : config.Verbose <;> simp [childEnvVars, hv]

/-- Configuration with export and verbose enabled, as the export test
would need it. -/
def exportedConfig : Config :=
  { ExitNode := "", Hostname := "tailproxy", AuthKey := "",
    ProxyPort := 1080, Verbose := true, ExportListeners := true,
    ExportAllowPorts := "", ExportDenyPorts := "", ExportMax := 32 }

/-- Claim C1 (divergence evidence): whatever the configuration — export
enabled or not — the coordinator's child environment never contains
TAILPROXY_EXPORT_LISTENERS or TAILPROXY_CONTROL_SOCK; with export and
verbose enabled it adds exactly LD_PRELOAD, TAILPROXY_HOST,
TAILPROXY_PORT and TAILPROXY_VERBOSE; and the flag set recognises none
of the export flags, so `-export-listeners` is rejected by the flag
parser before any control socket could be opened. -/
theorem main_no_export_wiring :
    (∀ (config : Config) (lib : String),
        ((childEnvVars config lib).map Prod.fst).contains "TAILPROXY_EXPORT_LISTENERS"
          = false
      ∧ ((childEnvVars config lib).map Prod.fst).contains "TAILPROXY_CONTROL_SOCK"
          = false)
  ∧ (childEnvVars exportedConfig "libtailproxy.so").map Prod.fst
      = ["LD_PRELOAD", "TAILPROXY_HOST", "TAILPROXY_PORT", "TAILPROXY_VERBOSE"]
  ∧ recognizedFlags.contains "export-listeners" = false
  ∧ recognizedFlags.contains "export-allow-ports" = false
  ∧ recognizedFlags.contains "export-deny-ports" = false
  ∧ recognizedFlags.contains "export-max" = false := by
  refine ⟨?_, ?_, by decide, by decide, by decide, by decide⟩
  · intro config lib
    rw [childEnvVars_keys]
    cases config.Verbose <;> exact ⟨by decide, by decide⟩
  · rw [childEnvVars_keys]
    decide

/-- A configuration file with every key missing. -/
def emptyFile : ConfigFile := ⟨none, none, none, none, none, none, none, none, none⟩

/-- A configuration file supplying only proxy_port 9999. -/
def filePort9999 : ConfigFile := ⟨none, none, none, some 9999, none, none, none, none, none⟩

/-- Flag values for the invocation `-config=tailproxy.json -port=2000`:
the port flag holds the explicitly supplied 2000. -/
def flagsPort2000 : Flags :=
  { exitNode := "", configFile := "tailproxy.json", hostname := "tailproxy",
    authKey := "", proxyPort := 2000, verbose := false }

/-- Claim C8 (divergence evidence): a file with every key missing loads
as the documented defaults; but when a loaded file supplies proxy_port
9999 and the command line explicitly supplies -port=2000, the effective
configuration keeps 9999 — the override block copies only exit-node,
hostname and authkey (and only when they differ from the flag default),
never port or verbose. -/
theorem config_defaults_overrides :
    LoadConfig emptyFile =
      { ExitNode := "", Hostname := "tailproxy", AuthKey := "", ProxyPort := 1080,
        Verbose := false, ExportListeners := false, ExportAllowPorts := "",
        ExportDenyPorts := "", ExportMax := 32 }
  ∧ flagsPort2000.proxyPort = 2000
  ∧ (applyFlagOverrides flagsPort2000 (LoadConfig filePort9999)).ProxyPort = 9999 :=
  ⟨by decide, by decide, by decide⟩

end Tailproxy
